import Mathlib

/-!
Verification of the jetrtc/jetrest request-dispatch layer: a shallow embedding
of the URL builder, the content negotiator, the Session encode/decode/status
operations, the middleware chain, and the client retry protocol, together with
theorems settling the specified properties against the source.

Go strings are modelled as `List Char`; Go byte-level operations coincide with
character-level ones on the ASCII data handled here.  External collaborators
(the Go standard library and net/http response writer) are modelled by
definitions whose doc comments name the library function they model.
-/

namespace JetRest

/-- A Go string, modelled as its list of characters. -/
abbrev GoStr := List Char

/-- Characters of a Lean string literal, used to write Go string constants. -/
def str (s : String) : GoStr := s.data

/- ------------------------------------------------------------------
URL builder (src/unnamed/part_001): `URL`, `Param`, `Encode`.
The query collection models Go `net/url.Values`: `Add` appends a value
under a key, and `Encode` emits keys in sorted order with each key's
values in insertion order.
------------------------------------------------------------------ -/

/-- The token `"{" + name + "}"` built by `URL.Param`. -/
def tok (name : GoStr) : GoStr := '\x7b' :: name ++ ['\x7d']

/-- Modelled from Go `strings.Index`: index of the first occurrence of
`sub` in `s`, `none` when absent (Go returns `-1`). -/
def goIndex (s sub : GoStr) : Option Nat :=
  match s with
  | [] => if sub = [] then some 0 else none
  | _ :: rest => if sub.isPrefixOf s then some 0 else (goIndex rest sub).map (· + 1)

/-- URL state (src/unnamed/part_001): base string plus multi-valued query
collection, kept in insertion order of `Add` calls. -/
structure URL where
  url : GoStr
  query : List (GoStr × GoStr)
deriving DecidableEq

/-- NewURL (src/unnamed/part_001): fresh URL with empty query collection. -/
def NewURL (u : GoStr) : URL := { url := u, query := [] }

/-- URL.Param (src/unnamed/part_001:41-50): substitute the first occurrence of
`"{name}"` when `strings.Index` returns an index strictly greater than zero,
otherwise `query.Add(name, value)`. -/
def URL.Param (r : URL) (name value : GoStr) : URL :=
  let sub := tok name
  match goIndex r.url sub with
  | some i =>
    if 0 < i then { r with url := r.url.take i ++ value ++ r.url.drop (i + sub.length) }
    else { r with query := r.query ++ [(name, value)] }
  | none => { r with query := r.query ++ [(name, value)] }

/-- Values stored under key `k`, in insertion order (Go `url.Values[k]`). -/
def valuesOf (q : List (GoStr × GoStr)) (k : GoStr) : List GoStr :=
  (q.filter (fun p => p.1 == k)).map Prod.snd

/-- Lexicographic byte-order comparison on strings, as Go `sort.Strings` uses. -/
def ltStr : GoStr → GoStr → Bool
  | [], [] => false
  | [], _ :: _ => true
  | _ :: _, [] => false
  | c :: a, d :: b =>
    if c.toNat < d.toNat then true
    else if d.toNat < c.toNat then false
    else ltStr a b

/-- Insert a key into a sorted duplicate-free key list. -/
def insertSorted (k : GoStr) : List GoStr → List GoStr
  | [] => [k]
  | k' :: rest => if k = k' then k' :: rest else if ltStr k k' then k :: k' :: rest else k' :: insertSorted k rest

/-- Distinct keys of the query collection in sorted order (Go `url.Values.Encode`
sorts keys before emitting). -/
def sortedKeys (q : List (GoStr × GoStr)) : List GoStr :=
  q.foldl (fun acc p => insertSorted p.1 acc) []

/-- Modelled from Go `url.QueryEscape` on one character: unreserved characters
pass through, space becomes `+`, anything else is percent-encoded. -/
def escapeChar (c : Char) : GoStr :=
  if c.isAlphanum || c = '-' || c = '_' || c = '.' || c = '~' then [c]
  else if c = ' ' then ['+']
  else ['%',
    (if c.toNat / 16 % 16 < 10 then Char.ofNat ('0'.toNat + c.toNat / 16 % 16)
     else Char.ofNat ('A'.toNat + c.toNat / 16 % 16 - 10)),
    (if c.toNat % 16 < 10 then Char.ofNat ('0'.toNat + c.toNat % 16)
     else Char.ofNat ('A'.toNat + c.toNat % 16 - 10))]

/-- Modelled from Go `url.QueryEscape`. -/
def queryEscape (s : GoStr) : GoStr := s.flatMap escapeChar

/-- Join encoded `k=v` pairs with `&`. -/
def joinAmp : List GoStr → GoStr
  | [] => []
  | [x] => x
  | x :: y :: xs => x ++ '&' :: joinAmp (y :: xs)

/-- Modelled from Go `url.Values.Encode`: keys in sorted order, each key's
values in insertion order, pairs joined by `&`. -/
def valuesEncode (q : List (GoStr × GoStr)) : GoStr :=
  joinAmp ((sortedKeys q).flatMap (fun k => (valuesOf q k).map (fun v => queryEscape k ++ '=' :: queryEscape v)))

/-- URL.Encode (src/unnamed/part_001:52-58): append `?` and the encoded query
string only when at least one query parameter was accumulated. -/
def URL.Encode (r : URL) : GoStr :=
  if r.query.length > 0 then r.url ++ '?' :: valuesEncode r.query else r.url

theorem valuesOf_append (q : List (GoStr × GoStr)) (n v k : GoStr) :
    valuesOf (q ++ [(n, v)]) k = valuesOf q k ++ (if n = k then [v] else []) := by
  simp only [valuesOf, List.filter_append, List.map_append]
  congr 1
  by_cases h : n = k
  · simp [h, List.filter, List.map]
  · have hb : (n == k) = false := by simp [h]
    simp [List.filter, List.map, hb, h]

/-- C8 counterexample: the claim says `Param` substitutes whenever the literal
token occurs anywhere in the current path, but the source tests `i > 0`, so a
token at position 0 is not substituted: `Param "id" "x"` on the URL `"{id}"`
appends a query parameter instead of producing `"x"`. -/
theorem param_token_at_start_not_substituted :
    URL.Encode (URL.Param (NewURL (tok (str "id"))) (str "id") (str "x")) =
      tok (str "id") ++ '?' :: str "id=x" ∧
    URL.Encode (URL.Param (NewURL (tok (str "id"))) (str "id") (str "x")) ≠ str "x" := by
  constructor
  · rfl
  · decide

/-- C8 amended: `Param` substitutes the first occurrence of `"{name}"` only when
that occurrence is at an index strictly greater than 0; when the token is absent
or its first occurrence is at index 0 the pair is appended to the query
collection, where repeated names accumulate in insertion order per key. -/
theorem param_substitution_condition (r : URL) (name value : GoStr) :
    (∀ i, goIndex r.url (tok name) = some i → 0 < i →
      (URL.Param r name value).url
          = r.url.take i ++ value ++ r.url.drop (i + (tok name).length) ∧
      (URL.Param r name value).query = r.query) ∧
    ((goIndex r.url (tok name) = none ∨ goIndex r.url (tok name) = some 0) →
      (URL.Param r name value).url = r.url ∧
      (URL.Param r name value).query = r.query ++ [(name, value)] ∧
      valuesOf (URL.Param r name value).query name = valuesOf r.query name ++ [value] ∧
      ∀ k, k ≠ name → valuesOf (URL.Param r name value).query k = valuesOf r.query k) := by
  constructor
  · intro i hi hpos
    simp [URL.Param, hi, hpos]
  · intro hc
    have hq : (URL.Param r name value).url = r.url ∧
        (URL.Param r name value).query = r.query ++ [(name, value)] := by
      rcases hc with h | h <;> simp [URL.Param, h]
    refine ⟨hq.1, hq.2, ?_, ?_⟩
    · rw [hq.2, valuesOf_append]
      simp
    · intro k hk
      rw [hq.2, valuesOf_append]
      simp [Ne.symm hk]

/-- C8 amended witness: on the URL `"a"` (no token), `Param "id" "v"` leaves the
path unchanged and appends to the query collection. -/
theorem param_substitution_condition_witness :
    (URL.Param (NewURL (str "a")) (str "id") (str "v")).url = str "a" ∧
    (URL.Param (NewURL (str "a")) (str "id") (str "v")).query = [(str "id", str "v")] :=
  ⟨((param_substitution_condition (NewURL (str "a")) (str "id") (str "v")).2
      (Or.inl (by decide))).1,
   ((param_substitution_condition (NewURL (str "a")) (str "id") (str "v")).2
      (Or.inl (by decide))).2.1⟩

/- ------------------------------------------------------------------
Content negotiator (src/unnamed/part_003): the constants and the pure
decision helpers `isTypeOf`, `isProto`, `accepts`.
------------------------------------------------------------------ -/

/-- Constant ContentType (src/unnamed/part_003). -/
def ContentType : GoStr := str "Content-Type"

/-- Constant JsonContentType (src/unnamed/part_003). -/
def JsonContentType : GoStr := str "application/json"

/-- Constant ProtobufContentTypes (src/unnamed/part_003): the two accepted
binary media-type spellings, in priority order. -/
def ProtobufContentTypes : List GoStr :=
  [str "application/protobuf", str "application/x-protobuf"]

/-- isTypeOf (src/unnamed/part_003): true iff `mime` starts with one of the
registered media types. -/
def isTypeOf (mime : GoStr) (types : List GoStr) : Bool :=
  types.any (fun t => t.isPrefixOf mime)

/-- isProto (src/unnamed/part_003): the request/response media type indicates
the binary schema format. -/
def isProto (mime : GoStr) : Bool := isTypeOf mime ProtobufContentTypes

/-- accepts (src/unnamed/part_003): scan the registered types in priority
order; return the first registered type that some accept-header value starts
with, or the empty string when none matches. -/
def accepts (types : List GoStr) (accs : List GoStr) : GoStr :=
  match types with
  | [] => []
  | t :: rest => if accs.any (fun a => t.isPrefixOf a) then t else accepts rest accs

/- ------------------------------------------------------------------
Response writer model.  `RW` models the Go net/http `ResponseWriter`
backing a Session: a mutable header map, the write-once transport
status, the snapshot of headers taken when the status line is sent,
the accumulated body, and a counter of the transport's "superfluous
WriteHeader" warnings.
------------------------------------------------------------------ -/

/-- State of the underlying net/http response writer. -/
structure RW where
  header : List (GoStr × GoStr)
  wroteHeader : Bool
  status : Nat
  sentHeader : List (GoStr × GoStr)
  body : GoStr
  superfluous : Nat
deriving DecidableEq

/-- A response writer for a request on which nothing has been written yet. -/
def freshRW : RW :=
  { header := [], wroteHeader := false, status := 0, sentHeader := [], body := [], superfluous := 0 }

/-- Modelled from Go `http.Header.Set`: replace the value under a key, or add it. -/
def setHeader : List (GoStr × GoStr) → GoStr → GoStr → List (GoStr × GoStr)
  | [], k, v => [(k, v)]
  | (k', v') :: rest, k, v =>
    if k' = k then (k, v) :: rest else (k', v') :: setHeader rest k v

/-- Modelled from Go `http.Header.Get`: first value under a key. -/
def getHeader : List (GoStr × GoStr) → GoStr → Option GoStr
  | [], _ => none
  | (k', v) :: rest, k => if k' = k then some v else getHeader rest k

/-- Modelled from Go net/http `ResponseWriter.WriteHeader`: the first call
fixes the status and snapshots the header map; any later call only logs a
superfluous-WriteHeader warning. -/
def RW.writeHeader (w : RW) (code : Nat) : RW :=
  if w.wroteHeader then { w with superfluous := w.superfluous + 1 }
  else { w with wroteHeader := true, status := code, sentHeader := w.header }

/-- Modelled from Go net/http `ResponseWriter.Write`: an implicit
`WriteHeader 200` on first write, then append to the body. -/
def RW.write (w : RW) (s : GoStr) : RW :=
  let w := if w.wroteHeader then w else w.writeHeader 200
  { w with body := w.body ++ s }

/-- Set a header on the response writer's header map. -/
def RW.setH (w : RW) (k v : GoStr) : RW := { w with header := setHeader w.header k v }

/-- Modelled from Go `http.Error`: set Content-Type and X-Content-Type-Options,
write the status header, then print the message followed by a newline. -/
def httpError (w : RW) (msg : GoStr) (code : Nat) : RW :=
  ((((w.setH (str "Content-Type") (str "text/plain; charset=utf-8")).setH
      (str "X-Content-Type-Options") (str "nosniff")).writeHeader code).write
    (msg ++ ['\n']))

/-- Session.Statusf (src/unnamed/part_003:134-138): format the message, log it
at debug level (logging does not touch the response state), and call
`http.Error` on the response writer — unconditionally, with no guard.  The
message argument models the already-formatted `fmt.Sprintf(format, args...)`. -/
def Session.Statusf (code : Nat) (msg : GoStr) (w : RW) : RW := httpError w msg code

/-- Modelled from Go `http.StatusText`, restricted to the codes used here. -/
def statusText (code : Nat) : GoStr :=
  if code = 200 then str "OK"
  else if code = 404 then str "Not Found"
  else if code = 500 then str "Internal Server Error"
  else []

/-- Session.Status (src/unnamed/part_003:130-132): delegate to `Statusf` with
the standard status text. -/
def Session.Status (code : Nat) (w : RW) : RW := Session.Statusf code (statusText code) w

/-- C1 counterexample: the claim says a second `Statusf` call on one Session
leaves the response unchanged, but the source has no write-once guard: the
second call runs `http.Error` again and appends its message line to the
response body, so the response does change. -/
theorem statusf_twice_changes_body :
    (Session.Statusf 500 (str "boom") (Session.Statusf 404 (str "Not Found") freshRW)).body
      ≠ (Session.Statusf 404 (str "Not Found") freshRW).body := by
  decide

/-- C1 amended: `Session.Statusf` has no write-once guard of its own.  On a
fresh response writer, the first call fixes the transport status (the
underlying writer ignores the second `WriteHeader`, counting one superfluous
warning), but the second call is not a no-op: it appends its own message line
to the response body. -/
theorem statusf_no_write_once_guard (w : RW) (c1 c2 : Nat) (m1 m2 : GoStr)
    (h : w.wroteHeader = false) :
    (Session.Statusf c1 m1 w).status = c1 ∧
    (Session.Statusf c1 m1 w).body = w.body ++ m1 ++ ['\n'] ∧
    (Session.Statusf c2 m2 (Session.Statusf c1 m1 w)).status = c1 ∧
    (Session.Statusf c2 m2 (Session.Statusf c1 m1 w)).superfluous = w.superfluous + 1 ∧
    (Session.Statusf c2 m2 (Session.Statusf c1 m1 w)).body
        = w.body ++ m1 ++ ['\n'] ++ m2 ++ ['\n'] := by
  simp [Session.Statusf, httpError, RW.writeHeader, RW.write, RW.setH, h]

/-- C1 amended witness: concrete double call on a fresh response writer. -/
theorem statusf_no_write_once_guard_witness :
    (Session.Statusf 404 (str "a") freshRW).status = 404 ∧
    (Session.Statusf 404 (str "a") freshRW).body = str "a" ++ ['\n'] ∧
    (Session.Statusf 500 (str "b") (Session.Statusf 404 (str "a") freshRW)).status = 404 ∧
    (Session.Statusf 500 (str "b") (Session.Statusf 404 (str "a") freshRW)).superfluous = 1 ∧
    (Session.Statusf 500 (str "b") (Session.Statusf 404 (str "a") freshRW)).body
        = str "a" ++ ['\n'] ++ str "b" ++ ['\n'] :=
  statusf_no_write_once_guard freshRW 404 500 (str "a") (str "b") rfl

/- ------------------------------------------------------------------
Session.Decode / Session.Encode (src/unnamed/part_003).  The Go type
switch `case proto.Message:` is modelled by the boolean `isMsg`
(whether the destination/value is capability-tagged as a schema
message); the external serializers are modelled by their outcomes,
passed in as parameters that the embedded control flow consumes
exactly where the source calls them.
------------------------------------------------------------------ -/

/-- The wire format chosen by negotiation. -/
inductive Format
  | protobuf
  | json
deriving DecidableEq

/-- Session.Decode (src/unnamed/part_003:89-114).  `isMsg` models the
`proto.Message` type switch on the destination, `ctype` the request's
Content-Type header, `readBody` the outcome of reading the request body,
`protoUnmarshal` the outcome of `proto.Unmarshal` on the bytes read, and
`jsonDecode` the outcome of the streaming JSON decoder.  Returns the chosen
decode path together with the returned error.  Note the JSON branch returns
the JSON decoder's outcome directly: the decoded value is never re-serialized
through the schema marshaler, so no required-field validation happens. -/
def Session.Decode (isMsg : Bool) (ctype : GoStr) (readBody : Except GoStr GoStr)
    (protoUnmarshal : GoStr → Except GoStr Unit) (jsonDecode : Except GoStr Unit) :
    Format × Except GoStr Unit :=
  if isMsg then
    if isProto ctype then
      (.protobuf,
        match readBody with
        | .error e => .error e
        | .ok data => protoUnmarshal data)
    else (.json, jsonDecode)
  else (.json, jsonDecode)

/-- C4: `Session.Decode` takes the binary (protobuf) decode path exactly when
the destination is a schema message and the request's Content-Type header
indicates a binary format; in every other case it decodes JSON, regardless of
destination type. -/
theorem decode_format_policy (isMsg : Bool) (ctype : GoStr) (readBody : Except GoStr GoStr)
    (protoUnmarshal : GoStr → Except GoStr Unit) (jsonDecode : Except GoStr Unit) :
    (Session.Decode isMsg ctype readBody protoUnmarshal jsonDecode).1 = .protobuf
      ↔ (isMsg = true ∧ isProto ctype = true) := by
  cases isMsg <;> by_cases h : isProto ctype <;> simp [Session.Decode, h]

/-- C4 witness: a schema-message destination with a binary Content-Type takes
the protobuf path. -/
theorem decode_format_policy_witness :
    (Session.Decode true (str "application/protobuf") (.ok [])
        (fun _ => .ok ()) (.ok ())).1 = Format.protobuf :=
  (decode_format_policy true (str "application/protobuf") (.ok [])
      (fun _ => .ok ()) (.ok ())).mpr ⟨rfl, by decide⟩

/-- C6: for a schema-message destination with a JSON Content-Type whose body
parses as JSON, `Session.Decode` returns success unconditionally — the source
never re-serializes the decoded value through the schema marshaler, so a
missing required field cannot surface as a ValidationError.  This contradicts
the repository's own README (part_002: `Session.Decode` "will do all the data
validation magic") and sample/user_test.go, which expects status 400 for a
POST whose JSON body lacks the required email field. -/
theorem decode_json_skips_required_validation (readBody : Except GoStr GoStr)
    (protoUnmarshal : GoStr → Except GoStr Unit) :
    (Session.Decode true JsonContentType readBody protoUnmarshal (.ok ())).2 = .ok () :=
  rfl

/-- Session.encodeProto (src/unnamed/part_003:159-176): default the negotiated
accept type to the first registered binary type, set the response Content-Type
header, then marshal and write.  `marshal` models the outcome of
`proto.Marshal v`. -/
def Session.encodeProto (accept : GoStr) (marshal : Except GoStr GoStr) (w : RW) :
    RW × Except GoStr Unit :=
  let acc := if accept = [] then ProtobufContentTypes.headD [] else accept
  let w := w.setH ContentType acc
  match marshal with
  | .error e => (w, .error e)
  | .ok data => (w.write data, .ok ())

/-- Session.encodeJSON (src/unnamed/part_003:178-192): set the response
Content-Type header to JSON, then marshal and write.  `marshal` models the
outcome of `json.MarshalIndent v prefix indent`. -/
def Session.encodeJSON (marshal : Except GoStr GoStr) (w : RW) : RW × Except GoStr Unit :=
  let w := w.setH ContentType JsonContentType
  match marshal with
  | .error e => (w, .error e)
  | .ok data => (w.write data, .ok ())

/-- Session.Encode (src/unnamed/part_003:116-128): for a schema message,
compute the accept match against the registered binary types; if the request's
Content-Type was binary or an accept value matched, encode protobuf, otherwise
encode JSON; any non-schema value encodes JSON.  Returns the chosen path with
the writer state and error. -/
def Session.Encode (isMsg : Bool) (ctype : GoStr) (acceptVals : List GoStr)
    (protoMarshal jsonMarshal : Except GoStr GoStr) (w : RW) :
    Format × RW × Except GoStr Unit :=
  if isMsg then
    let accept := accepts ProtobufContentTypes acceptVals
    if isProto ctype = true ∨ accept ≠ [] then
      (.protobuf, Session.encodeProto accept protoMarshal w)
    else (.json, Session.encodeJSON jsonMarshal w)
  else (.json, Session.encodeJSON jsonMarshal w)

theorem getHeader_setHeader (hs : List (GoStr × GoStr)) (k v : GoStr) :
    getHeader (setHeader hs k v) k = some v := by
  induction hs with
  | nil => simp [setHeader, getHeader]
  | cons p rest ih =>
    by_cases h : p.1 = k
    · simp [setHeader, getHeader, h]
    · simp [setHeader, getHeader, h, ih]

/-- C5: `Session.Encode` chooses the binary (protobuf) format exactly when the
value is a schema message and either the request's Content-Type was binary or
its Accept header matches a registered binary type; otherwise it chooses JSON.
On a fresh response writer with a successful marshal, the chosen format's
media type is in the headers sent with the status line (so the header was set
before the serialized bytes were written), and the body holds exactly the
serialized bytes. -/
theorem encode_format_policy (isMsg : Bool) (ctype : GoStr) (acceptVals : List GoStr)
    (pd jd : GoStr) (w : RW) (h : w.wroteHeader = false) :
    ((Session.Encode isMsg ctype acceptVals (.ok pd) (.ok jd) w).1 = .protobuf
      ↔ (isMsg = true ∧
          (isProto ctype = true ∨ accepts ProtobufContentTypes acceptVals ≠ []))) ∧
    ((Session.Encode isMsg ctype acceptVals (.ok pd) (.ok jd) w).1 = .protobuf →
      (Session.Encode isMsg ctype acceptVals (.ok pd) (.ok jd) w).2.1.body = w.body ++ pd ∧
      getHeader (Session.Encode isMsg ctype acceptVals (.ok pd) (.ok jd) w).2.1.sentHeader
          ContentType
        = some (if accepts ProtobufContentTypes acceptVals = []
                then ProtobufContentTypes.headD []
                else accepts ProtobufContentTypes acceptVals)) ∧
    ((Session.Encode isMsg ctype acceptVals (.ok pd) (.ok jd) w).1 = .json →
      (Session.Encode isMsg ctype acceptVals (.ok pd) (.ok jd) w).2.1.body = w.body ++ jd ∧
      getHeader (Session.Encode isMsg ctype acceptVals (.ok pd) (.ok jd) w).2.1.sentHeader
          ContentType
        = some JsonContentType) ∧
    (Session.Encode isMsg ctype acceptVals (.ok pd) (.ok jd) w).2.2 = .ok () := by
  cases isMsg with
  | false =>
    simp [Session.Encode, Session.encodeJSON, RW.write, RW.setH, RW.writeHeader, h,
      getHeader_setHeader]
  | true =>
    by_cases hc : isProto ctype = true ∨ accepts ProtobufContentTypes acceptVals ≠ []
    · simp only [Session.Encode, if_pos hc, if_pos rfl]
      refine ⟨by simp [hc], ?_, by simp, ?_⟩
      · intro _
        by_cases ha : accepts ProtobufContentTypes acceptVals = [] <;>
          simp [Session.encodeProto, RW.write, RW.setH, RW.writeHeader, h,
            getHeader_setHeader, ha]
      · by_cases ha : accepts ProtobufContentTypes acceptVals = [] <;>
          simp [Session.encodeProto, RW.write, ha]
    · simp only [Session.Encode, if_neg hc, if_pos rfl]
      refine ⟨by simp [hc], by simp, ?_, ?_⟩
      · intro _
        simp [Session.encodeJSON, RW.write, RW.setH, RW.writeHeader, h, getHeader_setHeader]
      · simp [Session.encodeJSON, RW.write]

/-- C5 witness: a schema message with JSON Content-Type but a protobuf Accept
value is encoded as protobuf with the matched binary media type sent as the
response Content-Type. -/
theorem encode_format_policy_witness :
    (Session.Encode true JsonContentType [str "application/protobuf"]
        (.ok (str "pb")) (.ok (str "js")) freshRW).1 = Format.protobuf ∧
    (Session.Encode true JsonContentType [str "application/protobuf"]
        (.ok (str "pb")) (.ok (str "js")) freshRW).2.1.body = freshRW.body ++ str "pb" := by
  have h := encode_format_policy true JsonContentType [str "application/protobuf"]
    (str "pb") (str "js") freshRW rfl
  have hp : (Session.Encode true JsonContentType [str "application/protobuf"]
      (.ok (str "pb")) (.ok (str "js")) freshRW).1 = Format.protobuf :=
    h.1.mpr ⟨rfl, Or.inr (by decide)⟩
  exact ⟨hp, (h.2.1 hp).1⟩

/- ------------------------------------------------------------------
Server middleware chain (src/server.go).  A handler mutates the
session; middleware transforms handlers.  `Server.Use` is the
registration step and `route.compose` is the wrapping loop of
`route.ServeHTTP`.
------------------------------------------------------------------ -/

/-- HandlerFunc (src/server.go): a handler transforms the session state. -/
abbrev Handler (σ : Type) := σ → σ

/-- MiddlewareFunc (src/server.go): transforms one handler into another. -/
abbrev MiddlewareFunc (σ : Type) := Handler σ → Handler σ

/-- Server.Use (src/server.go:85-88):
`s.middlewares = append(middlewares, s.middlewares...)` — the newly
registered middlewares are prepended to the stored list. -/
def Server.Use (old new : List (MiddlewareFunc σ)) : List (MiddlewareFunc σ) :=
  new ++ old

/-- route.ServeHTTP composition loop (src/server.go:32-35):
`for _, mw := range middlewares { handler = mw(handler) }` — fold the list
left to right, each element wrapping the handler built so far. -/
def route.compose (mws : List (MiddlewareFunc σ)) (h : Handler σ) : Handler σ :=
  mws.foldl (fun handler mw => mw handler) h

/-- A middleware that records its tag on the session trace before invoking the
inner handler; whichever middleware executes first contributes the first tag. -/
def tagMW (t : Nat) : MiddlewareFunc (List Nat) :=
  fun h trace => h (trace ++ [t])

/-- C7 counterexample: register middleware 1, then middleware 2, and dispatch.
The claim predicts the last-registered middleware (2) executes first, i.e. the
trace `[2, 1]`; the composed chain actually runs the first-registered
middleware first and produces `[1, 2]`. -/
theorem middleware_first_registered_runs_first :
    route.compose (Server.Use (Server.Use [] [tagMW 1]) [tagMW 2]) id [] = [1, 2] ∧
    route.compose (Server.Use (Server.Use [] [tagMW 1]) [tagMW 2]) id [] ≠ [2, 1] := by
  exact ⟨rfl, by decide⟩

/-- C7 amended: `Use` prepends and the dispatch loop folds left to right, so
middlewares from an earlier registration wrap outside those from a later one:
the composed chain equals the older middlewares composed around the newer
ones' composition, hence the first-registered middleware is outermost and
executes first; the order is deterministic. -/
theorem use_compose_order {σ : Type} (old new : List (MiddlewareFunc σ)) (h : Handler σ) :
    route.compose (Server.Use old new) h = route.compose old (route.compose new h) := by
  simp [route.compose, Server.Use, List.foldl_append]

/- ------------------------------------------------------------------
Client (src/server.go): the logical-call protocol of `Client.Request`
around the low-level `Client.request`.  One low-level call is modelled
by an `Attempt`: `preSend` collects the outcomes of body marshaling,
request construction and `Auth.Authorize` (all of which return before
anything is sent), and `send` the outcome of `http.Client.Do` plus the
response body read.  The send counter counts `Do` invocations.
------------------------------------------------------------------ -/

/-- A response, identified by an opaque token. -/
abbrev Resp := Nat

/-- Inputs consumed by one `Client.request` call (src/server.go:260-330). -/
structure Attempt where
  preSend : Except Nat Unit
  send : Except Nat Resp

/-- Client.request (src/server.go:260-330), abstracted to its outcome: a
failure before the send aborts the call, otherwise the send's outcome is
returned. -/
def requestOnce (a : Attempt) : Except Nat Resp :=
  match a.preSend with
  | .error e => .error e
  | .ok _ => a.send

/-- Number of underlying HTTP sends (`http.Client.Do` invocations) one
`Client.request` call performs: none when it fails before sending. -/
def attemptSends (a : Attempt) : Nat :=
  match a.preSend with
  | .error _ => 0
  | .ok _ => 1

/-- The configured `Auth` strategy's behaviour during one logical call:
`validate` models `Auth.Validate` on a response and `invalidate` models
`Auth.Invalidate`. -/
structure AuthEnv where
  validate : Resp → Except Nat Bool
  invalidate : Except Nat Unit

/-- Client.Request (src/server.go:232-258): send; if an auth strategy is
configured, validate the response — a validate error is returned, a not-valid
signal triggers `Invalidate` (whose error is returned) and then exactly one
repeated send whose outcome is returned without any further validation.
Returns the number of underlying sends together with the call's result. -/
def Client.Request (hasAuth : Bool) (auth : AuthEnv) (a1 a2 : Attempt) :
    Nat × Except Nat Resp :=
  match requestOnce a1 with
  | .error e => (attemptSends a1, .error e)
  | .ok res =>
    if hasAuth then
      match auth.validate res with
      | .error e => (attemptSends a1, .error e)
      | .ok valid =>
        if valid then (attemptSends a1, .ok res)
        else
          match auth.invalidate with
          | .error e => (attemptSends a1, .error e)
          | .ok _ =>
            match requestOnce a2 with
            | .error e => (attemptSends a1 + attemptSends a2, .error e)
            | .ok res2 => (attemptSends a1 + attemptSends a2, .ok res2)
    else (attemptSends a1, .ok res)

theorem attemptSends_le_one (a : Attempt) : attemptSends a ≤ 1 := by
  cases h : a.preSend <;> simp [attemptSends, h]

theorem attemptSends_of_ok (a : Attempt) (r : Resp) (h : requestOnce a = .ok r) :
    attemptSends a = 1 := by
  cases hp : a.preSend <;> simp [attemptSends, requestOnce, hp] at h ⊢

/-- C2 counterexample: when marshaling/request construction/authorization fails
before anything is sent, the logical call performs zero underlying sends, not
the "exactly one" the claim asserts for every case without a second send. -/
theorem client_request_zero_sends :
    ¬ ((Client.Request true ⟨fun _ => .ok true, .ok ()⟩
          ⟨.error 3, .ok 0⟩ ⟨.ok (), .ok 0⟩).1 = 1 ∨
       (Client.Request true ⟨fun _ => .ok true, .ok ()⟩
          ⟨.error 3, .ok 0⟩ ⟨.ok (), .ok 0⟩).1 = 2) := by
  decide

/-- C2 amended: a logical call performs at most two underlying sends; a second
send happens only when the auth strategy judged the first response not valid
and the invalidate step succeeded; in every other case at most one send occurs
(zero when the call fails before sending), and a validate or invalidate
failure aborts the call with that error after the single send. -/
theorem client_request_send_bounds (hasAuth : Bool) (auth : AuthEnv) (a1 a2 : Attempt) :
    (Client.Request hasAuth auth a1 a2).1 ≤ 2 ∧
    ((Client.Request hasAuth auth a1 a2).1 = 2 →
      hasAuth = true ∧ ∃ r, requestOnce a1 = .ok r ∧
        auth.validate r = .ok false ∧ auth.invalidate = .ok ()) ∧
    (∀ r e, requestOnce a1 = .ok r → hasAuth = true → auth.validate r = .error e →
      Client.Request hasAuth auth a1 a2 = (1, .error e)) ∧
    (∀ r e, requestOnce a1 = .ok r → hasAuth = true → auth.validate r = .ok false →
      auth.invalidate = .error e →
      Client.Request hasAuth auth a1 a2 = (1, .error e)) := by
  refine ⟨?_, ?_, ?_, ?_⟩
  · cases h1 : requestOnce a1 with
    | error e =>
      have hle := attemptSends_le_one a1
      simp only [Client.Request, h1]
      omega
    | ok r =>
      have hs1 := attemptSends_of_ok a1 r h1
      cases hasAuth with
      | false => simp [Client.Request, h1, hs1]
      | true =>
        cases hv : auth.validate r with
        | error e => simp [Client.Request, h1, hv, hs1]
        | ok valid =>
          cases valid with
          | true => simp [Client.Request, h1, hv, hs1]
          | false =>
            cases hi : auth.invalidate with
            | error e => simp [Client.Request, h1, hv, hi, hs1]
            | ok u =>
              have hle := attemptSends_le_one a2
              cases h2 : requestOnce a2 <;>
                · simp only [Client.Request, h1, hv, hi, h2, hs1, if_true, if_neg,
                    Bool.false_eq_true, not_false_eq_true, ite_false, ite_true]
                  omega
  · intro h2
    cases h1 : requestOnce a1 with
    | error e =>
      have hle := attemptSends_le_one a1
      simp only [Client.Request, h1] at h2
      omega
    | ok r =>
      have hs1 := attemptSends_of_ok a1 r h1
      cases hasAuth with
      | false => simp [Client.Request, h1, hs1] at h2
      | true =>
        cases hv : auth.validate r with
        | error e => simp [Client.Request, h1, hv, hs1] at h2
        | ok valid =>
          cases valid with
          | true => simp [Client.Request, h1, hv, hs1] at h2
          | false =>
            cases hi : auth.invalidate with
            | error e => simp [Client.Request, h1, hv, hi, hs1] at h2
            | ok u => cases u; exact ⟨rfl, r, rfl, hv, rfl⟩
  · intro r e h1 ha hv
    have hs1 := attemptSends_of_ok a1 r h1
    subst ha
    simp [Client.Request, h1, hv, hs1]
  · intro r e h1 ha hv hi
    have hs1 := attemptSends_of_ok a1 r h1
    subst ha
    simp [Client.Request, h1, hv, hi, hs1]

/-- C2 amended witness: a validate failure after a successful first send is
returned as the final error with exactly one send. -/
theorem client_request_send_bounds_witness :
    Client.Request true ⟨fun _ => .error 5, .ok ()⟩ ⟨.ok (), .ok 7⟩ ⟨.ok (), .ok 8⟩
      = (1, .error 5) :=
  (client_request_send_bounds true ⟨fun _ => .error 5, .ok ()⟩
      ⟨.ok (), .ok 7⟩ ⟨.ok (), .ok 8⟩).2.2.1 7 5 rfl rfl rfl

/-- C3 counterexample: with a strategy that judges every response not valid,
the first response triggers the retry, and the retried response — which the
strategy would also judge not valid — is returned as a successful result: the
call does not surface any "second invalid" failure, because the retried
response is never validated. -/
theorem client_request_retry_not_revalidated :
    Client.Request true ⟨fun _ => .ok false, .ok ()⟩ ⟨.ok (), .ok 7⟩ ⟨.ok (), .ok 8⟩
      = (2, .ok 8) := rfl

/-- C3 amended: when the auth strategy reports the first response not valid and
invalidate succeeds, the call performs the single retried send and returns its
outcome directly — without validating the retried response — and performs no
third send (the total send count stays at most two). -/
theorem client_request_retry_result (auth : AuthEnv) (a1 a2 : Attempt) (r : Resp)
    (h1 : requestOnce a1 = .ok r) (h2 : auth.validate r = .ok false)
    (h3 : auth.invalidate = .ok ()) :
    (Client.Request true auth a1 a2).1 ≤ 2 ∧
    (Client.Request true auth a1 a2).2 = requestOnce a2 := by
  have hs1 := attemptSends_of_ok a1 r h1
  have hle := attemptSends_le_one a2
  cases h4 : requestOnce a2 with
  | error e =>
    simp only [Client.Request, h1, h2, h3, h4, hs1, if_true, Bool.false_eq_true,
      not_false_eq_true, ite_false, ite_true]
    exact ⟨by omega, trivial⟩
  | ok r2 =>
    simp only [Client.Request, h1, h2, h3, h4, hs1, if_true, Bool.false_eq_true,
      not_false_eq_true, ite_false, ite_true]
    exact ⟨by omega, trivial⟩

/-- C3 amended witness: concrete retried call whose second response is
returned unvalidated. -/
theorem client_request_retry_result_witness :
    (Client.Request true ⟨fun _ => .ok false, .ok ()⟩ ⟨.ok (), .ok 7⟩ ⟨.ok (), .ok 8⟩).1 ≤ 2 ∧
    (Client.Request true ⟨fun _ => .ok false, .ok ()⟩ ⟨.ok (), .ok 7⟩ ⟨.ok (), .ok 8⟩).2
      = requestOnce ⟨.ok (), .ok 8⟩ :=
  client_request_retry_result ⟨fun _ => .ok false, .ok ()⟩
    ⟨.ok (), .ok 7⟩ ⟨.ok (), .ok 8⟩ 7 rfl rfl rfl

/- ------------------------------------------------------------------
Session.RemoteAddr (src/unnamed/part_003:62-79) and its standard-library
collaborators.
------------------------------------------------------------------ -/

/-- Index of the last occurrence of a character, if any. -/
def lastIndexOfChar : GoStr → Char → Option Nat
  | [], _ => none
  | x :: xs, c =>
    match lastIndexOfChar xs c with
    | some i => some (i + 1)
    | none => if x = c then some 0 else none

/-- Modelled from the Go standard library `net.SplitHostPort`, restricted to
unbracketed `host:port` strings (no IPv6 bracket syntax appears in the inputs
considered): split at the last colon, failing when there is no colon or when
the host part still contains one. -/
def splitHostPort (s : GoStr) : Except GoStr (GoStr × GoStr) :=
  match lastIndexOfChar s ':' with
  | none => .error (str "missing port")
  | some i =>
    let host := s.take i
    if host.contains ':' then .error (str "too many colons")
    else .ok (host, s.drop (i + 1))

/-- Split a string on a separator character (never returns an empty list). -/
def splitOnChar : GoStr → Char → List GoStr
  | [], _ => [[]]
  | x :: xs, c =>
    match splitOnChar xs c with
    | [] => [[x]]
    | r :: rs => if x = c then [] :: r :: rs else (x :: r) :: rs

/-- One dotted-quad field: a nonempty all-digit run with value at most 255. -/
def parseIPv4Field (s : GoStr) : Option Nat :=
  if s = [] then none
  else if s.all Char.isDigit then
    let n := s.foldl (fun acc c => acc * 10 + (c.toNat - '0'.toNat)) 0
    if n ≤ 255 then some n else none
  else none

/-- Modelled from the Go standard library `net.ParseIP`, restricted to IPv4
dotted-quad literals (no IPv6 literal appears in the inputs considered): four
dot-separated decimal fields, each at most 255; anything else is not an IP
literal and yields `none` (Go returns a nil IP). -/
def parseIP (s : GoStr) : Option (List Nat) :=
  match (splitOnChar s '.').mapM parseIPv4Field with
  | some [a, b, c, d] => some [a, b, c, d]
  | _ => none

/-- Session.RemoteAddr (src/unnamed/part_003:62-79).  `peer` is the transport
peer address `Request.RemoteAddr`; `fwds` the values of the X-Forwarded-For
header (`[]` when the header is absent — Go header maps never store an empty
value slice).  When the header is present its first value's first
comma-separated entry replaces the peer address; `SplitHostPort` strips a port
when it succeeds; then `ParseIP` runs.  When `ParseIP` fails the source logs
`err.Error()` — but on the path where `SplitHostPort` succeeded, `err` is nil
and that call dereferences a nil error value: a panic, modelled as
`.error ()`.  On the path where `SplitHostPort` failed, `err` is non-nil, the
failure is logged and the nil IP (`none`) is returned. -/
def Session.RemoteAddr (peer : GoStr) (fwds : List GoStr) : Except Unit (Option (List Nat)) :=
  let addr :=
    match fwds with
    | f :: _ => f.takeWhile (fun c => c ≠ ',')
    | [] => peer
  match splitHostPort addr with
  | .ok (host, _) =>
    match parseIP host with
    | some ip => .ok (some ip)
    | none => .error ()
  | .error _ =>
    match parseIP addr with
    | some ip => .ok (some ip)
    | none => .ok none

/-- C9: `Session.RemoteAddr` crashes on a forwarded address of the form
`host:port` whose host is not an IP literal: `SplitHostPort` succeeds, so the
local `err` is nil, `ParseIP` fails, and the logging call evaluates
`err.Error()` on the nil error — a nil-pointer panic, contradicting the
claim's "logs the parse failure and returns a nil IP rather than crashing".
The second conjunct shows the intended log-and-return-nil path does work when
`SplitHostPort` fails (hence `err` is non-nil), confirming the claim describes
the evident intent of the code. -/
theorem remoteAddr_panics_on_nonip_hostport :
    Session.RemoteAddr (str "1.2.3.4:56") [str "garbage:80"] = .error () ∧
    Session.RemoteAddr (str "1.2.3.4:56") [str "garbage"] = .ok none :=
  ⟨rfl, rfl⟩

/- ------------------------------------------------------------------
NewClient (src/server.go:195-200 and 466-473, identical in both
historical variants).
------------------------------------------------------------------ -/

/-- The Go `http.Client` owned by a `Client`, reduced to the field the claims
concern: its timeout in nanoseconds. -/
structure GoHttpClient where
  timeoutNs : Nat
deriving DecidableEq

/-- Client state (src/server.go:186-193): logger, transport client, base URL,
optional auth strategy, binary-format preference.  The logger is identified by
an opaque token. -/
structure Client where
  loggerId : Nat
  httpClient : GoHttpClient
  url : GoStr
  hasAuth : Bool
  protobuf : Bool
deriving DecidableEq

/-- Go `time.Second` in nanoseconds. -/
def goSecond : Nat := 1000000000

set_option linter.unusedVariables false in
/-- NewClient (src/server.go:195-200): the `timeout` argument is never read;
the transport client is always constructed with `Timeout: 5 * time.Second`,
and the remaining fields take their zero values. -/
def NewClient (loggerId : Nat) (timeout : Nat) : Client :=
  { loggerId := loggerId
    httpClient := { timeoutNs := 5 * goSecond }
    url := []
    hasAuth := false
    protobuf := false }

/-- C10: `NewClient` ignores its timeout argument — the constructed client's
transport timeout is the constant 5 seconds, and two clients built with the
same logger and different timeouts are identical. -/
theorem newClient_ignores_timeout (l t1 t2 : Nat) :
    (NewClient l t1).httpClient.timeoutNs = 5 * goSecond ∧
    NewClient l t1 = NewClient l t2 :=
  ⟨rfl, rfl⟩

end JetRest
